import Mathlib

/-!
Shallow embedding of the mirror/copy synchronization engine of the mc
object-storage client (src/cmd/mirror-main.go and src/cmd/cp-main.go),
together with theorems settling the frozen claims about it.

External collaborators (storage client stat/remove results, alias
expansion, the exclude-glob matcher, the older/newer predicates and the
ignorable-error classifier) are passed in as explicit oracle values or
functions, exactly at the call boundaries the Go code uses them.
-/

namespace MC

/-- Error kinds the engine distinguishes by type-switch. -/
inductive ErrKind where
  | pathInsufficientPermission
  | apiNotImplemented
  | otherErr (msg : String)
deriving DecidableEq, Repr

/-- A probe error value; traceCount models how many times Trace was applied. -/
structure Err where
  kind : ErrKind
  traceCount : Nat
deriving DecidableEq, Repr

/-- probe Error.Trace: annotates the error (modelled as a trace counter bump). -/
def Err.trace (e : Err) : Err :=
  { e with traceCount := e.traceCount + 1 }

/-- Go map read: a missing key yields the empty string, as in Go. -/
def metaLookup (m : List (String × String)) (k : String) : String :=
  match m.find? (fun p => p.1 == k) with
  | some p => p.2
  | none => ""

/-- Go map write: the new binding shadows any previous binding of the key. -/
def metaInsert (m : List (String × String)) (k v : String) : List (String × String) :=
  (k, v) :: m

/-- clientContent: one object descriptor (mirror-main.go / client abstraction). -/
structure ClientContent where
  urlPath : String
  size : Int
  time : Nat
  retention : Bool
  etag : String
  metadata : List (String × String)
  userMetadata : List (String × String)
deriving DecidableEq, Repr, Inhabited

/-- URLs: one transfer/removal intent (source, target, error, running totals). -/
structure URLs where
  sourceAlias : String
  sourceContent : Option ClientContent
  targetAlias : String
  targetContent : Option ClientContent
  totalCount : Int
  totalSize : Int
  error : Option Err
deriving DecidableEq, Repr, Inhabited

/-- URLs.WithError from the source: sets the Error field. -/
def URLs.withError (u : URLs) (e : Option Err) : URLs :=
  { u with error := e }

/-- The status counters kept by the Status object (Add / AddCounts / Get / GetCounts). -/
structure Status where
  totalBytes : Int
  totalCount : Int
deriving DecidableEq, Repr, Inhabited

/-- Watch event types (EventCreate, EventCreateCopy, EventCreatePutRetention, EventRemove). -/
inductive EventType where
  | create
  | createCopy
  | createPutRetention
  | remove
deriving DecidableEq, Repr

/-- A watch event as delivered on the watcher channel. -/
structure Event where
  type : EventType
  path : String
  size : Int
  userMetadata : List (String × String)
  userAgent : String
deriving DecidableEq, Repr

/-- Storage side effects an executor can perform; fake and error paths perform none. -/
inductive Effect where
  | clientCreate (path : String)
  | removeObject (path : String)
  | upload (u : URLs)
deriving DecidableEq, Repr

/-- Modelled from the spec: the replication marker tag key for the source ETag
(the multiMasterETagKey constant is declared outside src/; only its identity
as a fixed metadata key matters here). -/
def multiMasterETagKey : String := "X-Amz-Meta-Mm-Etag"

/-- Modelled from the spec: the replication marker tag key for the site tag
(the multiMasterSTagKey constant is declared outside src/; only its identity
as a fixed metadata key matters here). -/
def multiMasterSTagKey : String := "X-Amz-Meta-Mm-Stag"

/-- uaMirrorAppName: the user-agent identifier of the mirror process. -/
def uaMirrorAppName : String := "mc-mirror"

/-- strings.Contains: substring test. -/
def substrContains (s pat : String) : Bool :=
  (List.range (s.length + 1)).any (fun i => pat.isPrefixOf (s.drop i))

/-- strings.TrimPrefix: drops the prefix when present, otherwise returns the string. -/
def trimPrefixStr (s pre : String) : String :=
  if pre.isPrefixOf s then s.drop pre.length else s

/-- The mirror job configuration (mirrorJob struct, flag fields only;
storageCls is the storageClass field of the source). -/
structure MirrorJob where
  sourceURL : String
  targetURL : String
  isFake : Bool
  isRemove : Bool
  isOverwrite : Bool
  isWatch : Bool
  isPreserve : Bool
  olderThan : String
  newerThan : String
  storageCls : String
  userMetadata : List (String × String)
  excludeOptions : List String
  multiMasterEnable : Bool
  multiMasterSTag : String
deriving DecidableEq, Repr, Inhabited

/-- Oracle results for the storage collaborators used by doRemove: the outcome
of newClient on the target, and the per-path error stream of clnt.Remove. -/
structure RemoveEnv where
  newClientErr : Option Err
  removeErrors : List (Option Err)
deriving DecidableEq, Repr

/-- Oracle results for the collaborators used by doMirror: getFileAttrMeta
and uploadSourceToTargetURL. -/
structure MirrorEnv where
  attrResult : Except Err String
  uploadResult : URLs → URLs

/-- Oracle results for the collaborators used in the watch loop: alias
expansion of source and target (mustExpandAlias), the outcome of newClient
on the target path, and whether Stat on the target succeeds (object exists). -/
structure WatchEnv where
  sourceAlias : String
  sourceURLFull : String
  targetAlias : String
  expandedTargetPath : String
  targetClientErr : Option Err
  targetExists : Bool
deriving DecidableEq, Repr

/-- The first error of the remove stream that is not a permission error:
doRemove skips nil entries and PathInsufficientPermission entries and returns
on the first other error. -/
def firstRealRemoveErr : List (Option Err) → Option Err
  | [] => none
  | none :: rest => firstRealRemoveErr rest
  | some e :: rest =>
    if e.kind = ErrKind.pathInsufficientPermission then firstRealRemoveErr rest
    else some e

/-- doRemove (mirror-main.go:240-269): removes the target object.
none models the nil-pointer panic Go would hit on a removal intent without
target content (never constructed by the engine). -/
def doRemove (mj : MirrorJob) (env : RemoveEnv) (sURLs : URLs) :
    Option (URLs × List Effect) :=
  if mj.isFake = true then some (sURLs.withError none, [])
  else
    match sURLs.targetContent with
    | none => none
    | some tc =>
      let targetWithAlias := sURLs.targetAlias ++ "/" ++ tc.urlPath
      match env.newClientErr with
      | some e => some (sURLs.withError (some e), [Effect.clientCreate targetWithAlias])
      | none =>
        some (sURLs.withError (firstRealRemoveErr env.removeErrors),
              [Effect.clientCreate targetWithAlias, Effect.removeObject tc.urlPath])

/-- The target metadata map built by doMirror (mirror-main.go:296-322):
storage class, then the two multi-master marker tags (each only when the
source user metadata lacks it), then the preserved file attributes. -/
def mirrorTargetMetadata (mj : MirrorJob) (src : ClientContent) (attrValue : String) :
    List (String × String) :=
  let meta0 : List (String × String) := []
  let meta1 :=
    if mj.storageCls ≠ "" then metaInsert meta0 "X-Amz-Storage-Class" mj.storageCls
    else meta0
  let meta2 :=
    if mj.multiMasterEnable = true then
      let mA :=
        if metaLookup src.userMetadata multiMasterETagKey = "" then
          metaInsert meta1 multiMasterETagKey src.etag
        else meta1
      if metaLookup src.userMetadata multiMasterSTagKey = "" then
        metaInsert mA multiMasterSTagKey mj.multiMasterSTag
      else mA
    else meta1
  if mj.isPreserve = true ∧ attrValue ≠ "" then metaInsert meta2 "mc-attrs" attrValue
  else meta2

/-- The intent doMirror hands to uploadSourceToTargetURL: target metadata and
target user metadata filled in (mirror-main.go:296-336). -/
def mirrorPreparedURL (mj : MirrorJob) (sURLs : URLs) (src tgt : ClientContent)
    (attrValue : String) : URLs :=
  { sURLs with
    targetContent := some { tgt with
      metadata := mirrorTargetMetadata mj src attrValue,
      userMetadata := mj.userMetadata } }

/-- doMirror (mirror-main.go:272-337). Returns the result intent, the updated
status counters and the storage effects performed; none models the
nil-pointer panic on a malformed intent. -/
def doMirror (mj : MirrorJob) (env : MirrorEnv) (st : Status) (sURLs : URLs) :
    Option (URLs × Status × List Effect) :=
  match sURLs.error with
  | some e => some (sURLs.withError (some e.trace), st, [])
  | none =>
    if mj.isFake = true then
      let st2 :=
        match sURLs.sourceContent with
        | some c => { st with totalBytes := st.totalBytes + c.size }
        | none => st
      some (sURLs.withError none, st2, [])
    else
      match sURLs.sourceContent, sURLs.targetContent with
      | some src, some tgt =>
        match (if mj.isPreserve = true then env.attrResult else Except.ok "") with
        | Except.error pErr => some (sURLs.withError (some pErr), st, [])
        | Except.ok attrValue =>
          let out := mirrorPreparedURL mj sURLs src tgt attrValue
          some (env.uploadResult out, st, [Effect.upload out])
      | _, _ => none

/-- doCopy (cp-main.go:190-216): an intent already carrying an error is
returned with the error traced and nothing uploaded. -/
def doCopy (uploadResult : URLs → URLs) (cpURLs : URLs) :
    Option (URLs × List Effect) :=
  match cpURLs.error with
  | some e => some ({ cpURLs with error := some e.trace }, [])
  | none =>
    match cpURLs.sourceContent, cpURLs.targetContent with
    | some _, some _ => some (uploadResult cpURLs, [Effect.upload cpURLs])
    | _, _ => none

/-- doCopyFake (cp-main.go:219-224): advances the progress bar by the source
size (only in progress-bar mode) and returns the intent unchanged; no
storage effect is performed. -/
def doCopyFake (cpURLs : URLs) (isProgressBarMode : Bool) (pg : Int) :
    Option (URLs × Int × List Effect) :=
  if isProgressBarMode = true then
    match cpURLs.sourceContent with
    | some c => some (cpURLs, pg + c.size, [])
    | none => none
  else some (cpURLs, pg, [])

/-- What the scan loop of startMirror does with one received intent. -/
inductive ScanAction where
  | emitStatus (u : URLs)
  | skipFiltered
  | enqueueMirror (u : URLs)
  | enqueueRemove (u : URLs)
  | dropNoAction
deriving DecidableEq, Repr

/-- One iteration of the startMirror receive loop (mirror-main.go:550-606):
error intents go straight to the status channel, the older-than/newer-than
filters drop candidates before any counting, surviving intents are counted
and enqueued. isOlderF and isNewerF are the filter predicates. -/
def startMirrorStep (mj : MirrorJob) (isOlderF isNewerF : Nat → String → Bool)
    (st : Status) (sURLs : URLs) : ScanAction × Status :=
  if sURLs.error.isSome = true then (ScanAction.emitStatus sURLs, st)
  else if (match sURLs.sourceContent with
           | some c =>
             ((mj.olderThan != "") && isOlderF c.time mj.olderThan) ||
             ((mj.newerThan != "") && isNewerF c.time mj.newerThan)
           | none => false) = true then (ScanAction.skipFiltered, st)
  else
    let st1 :=
      match sURLs.sourceContent with
      | some c => { st with totalBytes := st.totalBytes + c.size }
      | none => st
    let st2 := { st1 with totalCount := st1.totalCount + 1 }
    let u := { sURLs with totalCount := st2.totalCount, totalSize := st2.totalBytes }
    if u.sourceContent.isSome = true then (ScanAction.enqueueMirror u, st2)
    else if u.targetContent.isSome = true ∧ mj.isRemove = true then
      (ScanAction.enqueueRemove u, st2)
    else (ScanAction.dropNoAction, st2)

/-- What the watch loop does with one event. -/
inductive WatchAction where
  | dropped
  | emitError (u : URLs)
  | enqueued (u : URLs)
  | removed (u : URLs)
deriving DecidableEq, Repr

/-- True exactly on the enqueued action. -/
def WatchAction.isEnqueueAct : WatchAction → Bool
  | WatchAction.enqueued _ => true
  | _ => false

/-- True exactly on the removed action. -/
def WatchAction.isRemoveAct : WatchAction → Bool
  | WatchAction.removed _ => true
  | _ => false

/-- The counting and enqueue step shared by both create branches of the watch
loop (mirror-main.go:463-470 and 492-500). -/
def watchEnqueue (mirrorURL : URLs) (st : Status) : WatchAction × Status :=
  let size :=
    match mirrorURL.sourceContent with
    | some c => c.size
    | none => 0
  let st2 : Status := { totalBytes := st.totalBytes + size, totalCount := st.totalCount + 1 }
  (WatchAction.enqueued { mirrorURL with totalSize := st2.totalBytes, totalCount := st2.totalCount },
   st2)

/-- The create-class branch of the watch loop (mirror-main.go:426-501):
loop-avoidance marker check, then the zero-size-retention existence check,
then the general existence/overwrite policy. -/
def watchCreateBranch (mj : MirrorJob) (env : WatchEnv) (st : Status) (event : Event) :
    WatchAction × Status :=
  let srcContent : ClientContent :=
    { urlPath := event.path, size := event.size, time := 0,
      retention := decide (event.type = EventType.createPutRetention),
      etag := "", metadata := event.userMetadata, userMetadata := [] }
  let tgtContent : ClientContent :=
    { urlPath := env.expandedTargetPath, size := 0, time := 0, retention := false,
      etag := "", metadata := [], userMetadata := [] }
  let mirrorURL : URLs :=
    { sourceAlias := env.sourceAlias, sourceContent := some srcContent,
      targetAlias := env.targetAlias, targetContent := some tgtContent,
      totalCount := 0, totalSize := 0, error := none }
  if metaLookup srcContent.metadata multiMasterETagKey ≠ "" then (WatchAction.dropped, st)
  else if srcContent.size = 0 ∧ srcContent.retention = true then
    match env.targetClientErr with
    | some e => (WatchAction.emitError (mirrorURL.withError (some e)), st)
    | none =>
      if mj.isOverwrite = false ∧ env.targetExists = true then (WatchAction.dropped, st)
      else
        let shouldQueue := !mj.isOverwrite
        if shouldQueue = true ∨ mj.isOverwrite = true ∨ mj.multiMasterEnable = true then
          watchEnqueue mirrorURL st
        else (WatchAction.dropped, st)
  else
    if mj.isOverwrite = false ∧ mj.multiMasterEnable = false then
      match env.targetClientErr with
      | some e => (WatchAction.emitError (mirrorURL.withError (some e)), st)
      | none =>
        if env.targetExists = true ∧ srcContent.retention = false then (WatchAction.dropped, st)
        else watchEnqueue mirrorURL st
    else watchEnqueue mirrorURL st

/-- The remove branch of the watch loop (mirror-main.go:502-517): loop
avoidance by user agent, then the removal/multi-site gate. -/
def watchRemoveBranch (mj : MirrorJob) (env : WatchEnv) (st : Status) (event : Event) :
    WatchAction × Status :=
  if substrContains event.userAgent uaMirrorAppName = true then (WatchAction.dropped, st)
  else
    let tgtContent : ClientContent :=
      { urlPath := env.expandedTargetPath, size := 0, time := 0, retention := false,
        etag := "", metadata := [], userMetadata := [] }
    let mirrorURL : URLs :=
      { sourceAlias := env.sourceAlias, sourceContent := none,
        targetAlias := env.targetAlias, targetContent := some tgtContent,
        totalCount := st.totalCount, totalSize := st.totalBytes, error := none }
    if mirrorURL.targetContent.isSome = true ∧ (mj.isRemove = true ∨ mj.multiMasterEnable = true) then
      (WatchAction.removed mirrorURL, st)
    else (WatchAction.dropped, st)

/-- One event of the watch loop (mirror-main.go:382-535): exclude filtering
applies to every event before dispatch on the event type. mex is the
matchExcludeOptions collaborator. -/
def watchMirrorStep (mj : MirrorJob) (mex : List String → String → Bool)
    (env : WatchEnv) (st : Status) (event : Event) : WatchAction × Status :=
  let sourceSuffix := trimPrefixStr event.path env.sourceURLFull
  if mex mj.excludeOptions sourceSuffix = true then (WatchAction.dropped, st)
  else if event.type = EventType.create ∨ event.type = EventType.createCopy ∨
          event.type = EventType.createPutRetention then
    watchCreateBranch mj env st event
  else if event.type = EventType.remove then
    watchRemoveBranch mj env st event
  else (WatchAction.dropped, st)

/-- The status-aggregation loop of the mirror job (mirror-main.go:340-379),
as a fold over the delivered results: copy failures flip the error flag
unless classified ignorable, removal failures always flip it, and in
multi-master mode the first failure stops the loop. The returned flag is
what mainMirror turns into a non-zero exit status (mirror-main.go:908-910). -/
def monitorMirrorStatusLoop (ignorable : Err → Bool) (mm : Bool) :
    Bool → List URLs → Bool
  | acc, [] => acc
  | acc, u :: rest =>
    match u.error with
    | none => monitorMirrorStatusLoop ignorable mm acc rest
    | some e =>
      let acc2 :=
        match u.sourceContent with
        | some _ => if ignorable e then acc else true
        | none => true
      if mm then acc2 else monitorMirrorStatusLoop ignorable mm acc2 rest

/-- The status loop of doCopySession (cp-main.go:469-516), as a fold over the
delivered results. Returns (retErr set, session died): every failure sets the
non-zero exit status before the ignorable check; a non-ignorable failure with
a session additionally terminates the session (copyCloseAndDie). -/
def doCopySessionLoop (ignorable : Err → Bool) (hasSession : Bool) :
    Bool → List URLs → Bool × Bool
  | retErr, [] => (retErr, false)
  | retErr, u :: rest =>
    match u.error with
    | none => doCopySessionLoop ignorable hasSession retErr rest
    | some e =>
      if ignorable e then doCopySessionLoop ignorable hasSession true rest
      else if hasSession then (true, true)
      else doCopySessionLoop ignorable hasSession true rest

/-- The source identifier of an intent (cpURLs.SourceContent.URL.String());
session intents always carry a source. -/
def srcURLString (u : URLs) : String :=
  match u.sourceContent with
  | some c => c.urlPath
  | none => ""

/-- The per-intent dispatch of the session replay (cp-main.go:453-462):
an intent marked already copied goes to doCopyFake, everything else to doCopy. -/
inductive CopyAction where
  | fake (u : URLs)
  | real (u : URLs)
deriving DecidableEq, Repr

/-- cp-main.go:454-462: dispatch on the verdict of the isCopied predicate. -/
def sessionDispatch (alreadyCopied : Bool) (u : URLs) : CopyAction :=
  if alreadyCopied = true then CopyAction.fake u else CopyAction.real u

/-- Modelled from the spec: the stateful predicate built by isLastFactory
(declared outside src/). The session header stores the resume marker, the
last successfully completed source URL; every replayed intent whose source
identifier sequentially precedes the marker, and the marker itself, is
treated as already complete; with an empty or absent marker nothing is. -/
def isCopiedList (lastCopied : String) (replayed : List String) : List Bool :=
  if lastCopied = "" then replayed.map (fun _ => false)
  else
    match replayed.findIdx? (fun u => u == lastCopied) with
    | none => replayed.map (fun _ => false)
    | some k => (List.range replayed.length).map (fun i => decide (i ≤ k))

/-- The replay of a session data file (cp-main.go:324-334 and 453-462): each
stored intent is dispatched to a fake or a real copy according to the resume
marker. -/
def sessionReplay (lastCopied : String) (replayed : List URLs) : List CopyAction :=
  (replayed.zip (isCopiedList lastCopied (replayed.map srcURLString))).map
    (fun p => sessionDispatch p.2 p.1)

/-- Modelled from the spec: the exclude-glob filtering inside prepareMirrorURLs
(declared outside src/): candidates matching an exclude pattern are dropped
per-candidate before emission. Each candidate is paired with the path string
the glob is matched against. -/
def prepareMirrorURLsExcludeFilter (mex : List String → String → Bool)
    (excludeOptions : List String) (candidates : List (String × URLs)) : List URLs :=
  (candidates.filter (fun p => !(mex excludeOptions p.1))).map (fun p => p.2)

/-- An exclude matcher that rejects nothing (used by concrete witnesses). -/
def mexFalse : List String → String → Bool := fun _ _ => false

/-- A watch environment for concrete witnesses: healthy target client, object absent. -/
def envW1 : WatchEnv :=
  { sourceAlias := "", sourceURLFull := "src", targetAlias := "",
    expandedTargetPath := "tgt/a", targetClientErr := none, targetExists := false }

/-- A create event already carrying the replication marker tag. -/
def evW1 : Event :=
  { type := EventType.create, path := "src/a", size := 7,
    userMetadata := [(multiMasterETagKey, "abc")], userAgent := "minio-go" }

/-- A multi-master watch job configuration for concrete witnesses. -/
def mjW1 : MirrorJob :=
  { sourceURL := "src", targetURL := "tgt", isFake := false, isRemove := false,
    isOverwrite := false, isWatch := true, isPreserve := true,
    olderThan := "", newerThan := "", storageCls := "",
    userMetadata := [], excludeOptions := [],
    multiMasterEnable := true, multiMasterSTag := "siteA" }

/-- A create event with no replication marker tag. -/
def evW2 : Event :=
  { type := EventType.create, path := "src/b", size := 9,
    userMetadata := [], userAgent := "minio-go" }

/-- Entries the removal error loop skips: nil errors and permission errors. -/
def removeSkippable (x : Option Err) : Prop :=
  x = none ∨ ∃ e, x = some e ∧ e.kind = ErrKind.pathInsufficientPermission

/-- A permission-denied removal error. -/
def permErr : Err := { kind := ErrKind.pathInsufficientPermission, traceCount := 0 }

/-- A generic non-ignorable error. -/
def badErr : Err := { kind := ErrKind.otherErr "bad", traceCount := 0 }

/-- A concrete source object descriptor. -/
def ccSrc : ClientContent :=
  { urlPath := "bucket/a", size := 5, time := 3, retention := false, etag := "etagA",
    metadata := [], userMetadata := [] }

/-- A concrete target object descriptor. -/
def ccTgt : ClientContent :=
  { urlPath := "bucket2/a", size := 0, time := 0, retention := false, etag := "",
    metadata := [], userMetadata := [] }

/-- A concrete copy intent without error. -/
def uOk : URLs :=
  { sourceAlias := "src", sourceContent := some ccSrc, targetAlias := "dst",
    targetContent := some ccTgt, totalCount := 0, totalSize := 0, error := none }

/-- A concrete removal intent (no source content). -/
def uRem : URLs :=
  { sourceAlias := "", sourceContent := none, targetAlias := "dst",
    targetContent := some ccTgt, totalCount := 0, totalSize := 0, error := none }

/-- A concrete intent already carrying an error. -/
def uErr : URLs := { uOk with error := some badErr }

/-- A mirror environment whose collaborators succeed and return the intent unchanged. -/
def envMirrorId : MirrorEnv := { attrResult := Except.ok "", uploadResult := fun u => u }

/-- A plain mirror job configuration (no multi-master, not fake). -/
def mjPlain : MirrorJob :=
  { mjW1 with multiMasterEnable := false, isPreserve := false, isWatch := false }

/-- A fake-mode job configuration. -/
def mjFake : MirrorJob := { mjPlain with isFake := true }

/-- An error classifier that treats every error as ignorable. -/
def ignoreAll : Err → Bool := fun _ => true

/-- An error classifier that treats no error as ignorable. -/
def ignoreNone : Err → Bool := fun _ => false

/-- A concrete removal result carrying an error. -/
def uRemErr : URLs := { uRem with error := some badErr }

/-- Replayed session intents with source identifiers a, b, c. -/
def uA : URLs := { uOk with sourceContent := some { ccSrc with urlPath := "a" } }

/-- Second replayed session intent (the resume marker). -/
def uB : URLs := { uOk with sourceContent := some { ccSrc with urlPath := "b" } }

/-- Third replayed session intent, past the resume marker. -/
def uC : URLs := { uOk with sourceContent := some { ccSrc with urlPath := "c" } }

/-- An exclude matcher that rejects everything. -/
def mexAll : List String → String → Bool := fun _ _ => true

/-- A newer-than predicate that rejects every object. -/
def isNewerAlways : Nat → String → Bool := fun _ _ => true

/-- An older-than predicate that rejects every object. -/
def isOlderAlways : Nat → String → Bool := fun _ _ => true

/-- A multi-master watch job with a newer-than filter configured. -/
def mjC5 : MirrorJob := { mjW1 with newerThan := "7d" }

/-- A plain batch job with an older-than filter configured. -/
def mjC5b : MirrorJob := { mjPlain with olderThan := "30d" }

/-- A create event used to exhibit the missing time filters in watch mode. -/
def evC5 : Event :=
  { type := EventType.create, path := "src/c5", size := 5, userMetadata := [],
    userAgent := "minio-go" }

/-- A remove job with removal propagation enabled. -/
def mjC6 : MirrorJob := { mjPlain with isRemove := true }

/-- A remove event from a foreign user agent. -/
def evC6 : Event :=
  { type := EventType.remove, path := "src/x", size := 0, userMetadata := [],
    userAgent := "aws-cli" }

/-- C1: in watch mode, a create-class event whose source object user metadata
already carries a non-empty replication marker tag (the multiMasterETagKey
entry) is dropped by the watch loop: no work is enqueued, no transfer is
performed, and nothing is emitted on the status channel (the action is
dropped and the status counters are returned unchanged). -/
theorem watch_create_marker_dropped
    (mj : MirrorJob) (mex : List String → String → Bool) (env : WatchEnv)
    (st : Status) (event : Event)
    (hc : event.type = EventType.create ∨ event.type = EventType.createCopy ∨
          event.type = EventType.createPutRetention)
    (hm : metaLookup event.userMetadata multiMasterETagKey ≠ "") :
    watchMirrorStep mj mex env st event = (WatchAction.dropped, st) := by
  unfold watchMirrorStep
  by_cases hex : mex mj.excludeOptions (trimPrefixStr event.path env.sourceURLFull) = true
  · simp [hex]
  · simp only [hex, if_false, Bool.false_eq_true]
    rcases hc with h | h | h <;> simp [h, watchCreateBranch, hm]

/-- Witness for C1 at a concrete marker-tagged create event. -/
theorem watch_create_marker_dropped_witness :
    watchMirrorStep mjW1 mexFalse envW1 { totalBytes := 0, totalCount := 0 } evW1 =
      (WatchAction.dropped, { totalBytes := 0, totalCount := 0 }) :=
  watch_create_marker_dropped mjW1 mexFalse envW1 _ evW1 (Or.inl rfl) (by decide)

/-- C2: in watch mode, a create-class event not dropped by exclusion or
loop-avoidance is, in multi-site mode, always enqueued regardless of target
existence (general case); for a zero-length object carrying the retention
flag, when overwrite is disabled the target existence check decides (skip
exactly when present), and when overwrite is enabled the event is enqueued
regardless of existence. -/
theorem watch_create_multisite_enqueue
    (mj : MirrorJob) (mex : List String → String → Bool) (env : WatchEnv)
    (st : Status) (event : Event)
    (hc : event.type = EventType.create ∨ event.type = EventType.createCopy ∨
          event.type = EventType.createPutRetention)
    (hex : mex mj.excludeOptions (trimPrefixStr event.path env.sourceURLFull) = false)
    (hmk : metaLookup event.userMetadata multiMasterETagKey = "")
    (hmm : mj.multiMasterEnable = true) :
    (¬(event.size = 0 ∧ event.type = EventType.createPutRetention) →
        (watchMirrorStep mj mex env st event).1.isEnqueueAct = true) ∧
    (event.size = 0 → event.type = EventType.createPutRetention →
        env.targetClientErr = none → mj.isOverwrite = false →
        (watchMirrorStep mj mex env st event).1.isEnqueueAct = !env.targetExists) ∧
    (event.size = 0 → event.type = EventType.createPutRetention →
        env.targetClientErr = none → mj.isOverwrite = true →
        (watchMirrorStep mj mex env st event).1.isEnqueueAct = true) := by
  refine ⟨?_, ?_, ?_⟩
  · intro hnz
    unfold watchMirrorStep
    rcases hc with h | h | h
    · simp only [hex, if_false, Bool.false_eq_true, h]
      simp [watchCreateBranch, hmk, hmm, h, watchEnqueue, WatchAction.isEnqueueAct]
    · simp only [hex, if_false, Bool.false_eq_true, h]
      simp [watchCreateBranch, hmk, hmm, h, watchEnqueue, WatchAction.isEnqueueAct]
    · have hsz : ¬ event.size = 0 := fun hs => hnz ⟨hs, h⟩
      simp only [hex, if_false, Bool.false_eq_true, h]
      simp [watchCreateBranch, hmk, hmm, hsz, watchEnqueue, WatchAction.isEnqueueAct]
  · intro hsz htyp hcl hov
    unfold watchMirrorStep
    simp only [hex, if_false, Bool.false_eq_true, htyp]
    simp only [watchCreateBranch, hmk]
    simp only [htyp, hsz, hcl, hov]
    cases hte : env.targetExists <;>
      simp [hte, watchEnqueue, WatchAction.isEnqueueAct]
  · intro hsz htyp hcl hov
    unfold watchMirrorStep
    simp only [hex, if_false, Bool.false_eq_true, htyp]
    simp only [watchCreateBranch, hmk]
    simp [htyp, hsz, hcl, hov, watchEnqueue, WatchAction.isEnqueueAct]

/-- Witness for C2 at a concrete untagged create event in multi-site mode:
the event is enqueued even though nothing else forces it. -/
theorem watch_create_multisite_enqueue_witness :
    (watchMirrorStep mjW1 mexFalse envW1 { totalBytes := 0, totalCount := 0 } evW2).1.isEnqueueAct =
      true :=
  (watch_create_multisite_enqueue mjW1 mexFalse envW1 _ evW2
      (Or.inl rfl) rfl rfl rfl).1 (by decide)

theorem firstRealRemoveErr_of_skippable (l : List (Option Err))
    (h : ∀ x ∈ l, removeSkippable x) : firstRealRemoveErr l = none := by
  induction l with
  | nil => rfl
  | cons x rest ih =>
    rcases h x (List.mem_cons_self x rest) with hx | ⟨e, hx, hk⟩
    · subst hx
      exact ih fun y hy => h y (List.mem_cons_of_mem _ hy)
    · subst hx
      simpa [firstRealRemoveErr, hk] using ih fun y hy => h y (List.mem_cons_of_mem _ hy)

theorem firstRealRemoveErr_append (pre : List (Option Err)) (e : Err)
    (rest : List (Option Err))
    (hpre : ∀ x ∈ pre, removeSkippable x)
    (he : e.kind ≠ ErrKind.pathInsufficientPermission) :
    firstRealRemoveErr (pre ++ some e :: rest) = some e := by
  induction pre with
  | nil => simp [firstRealRemoveErr, he]
  | cons x pre2 ih =>
    rcases hpre x (List.mem_cons_self x pre2) with hx | ⟨e2, hx, hk⟩
    · subst hx
      simpa [firstRealRemoveErr] using ih fun y hy => hpre y (List.mem_cons_of_mem _ hy)
    · subst hx
      simpa [firstRealRemoveErr, hk] using ih fun y hy => hpre y (List.mem_cons_of_mem _ hy)

/-- C7: doRemove swallows permission-denied errors reported on the remove
stream (when every stream error is a permission error the intent completes
with a nil error), while the first error of any other kind is returned
attached to the intent. -/
theorem doRemove_permission_swallowed
    (mj : MirrorJob) (env : RemoveEnv) (sURLs : URLs) (tc : ClientContent)
    (hfake : mj.isFake = false) (htc : sURLs.targetContent = some tc)
    (hcl : env.newClientErr = none) :
    ((∀ x ∈ env.removeErrors, removeSkippable x) →
        doRemove mj env sURLs =
          some (sURLs.withError none,
            [Effect.clientCreate (sURLs.targetAlias ++ "/" ++ tc.urlPath),
             Effect.removeObject tc.urlPath])) ∧
    (∀ pre e rest, env.removeErrors = pre ++ some e :: rest →
        (∀ x ∈ pre, removeSkippable x) →
        e.kind ≠ ErrKind.pathInsufficientPermission →
        doRemove mj env sURLs =
          some (sURLs.withError (some e),
            [Effect.clientCreate (sURLs.targetAlias ++ "/" ++ tc.urlPath),
             Effect.removeObject tc.urlPath])) := by
  constructor
  · intro hall
    simp [doRemove, hfake, htc, hcl, firstRealRemoveErr_of_skippable _ hall]
  · intro pre e rest hsplit hpre he
    simp [doRemove, hfake, htc, hcl, hsplit, firstRealRemoveErr_append pre e rest hpre he]

/-- Witness for C7: a permission error followed by a real error; the real
error is the one attached. -/
theorem doRemove_permission_swallowed_witness :
    doRemove mjPlain { newClientErr := none, removeErrors := [some permErr, some badErr] } uRem =
      some (uRem.withError (some badErr),
        [Effect.clientCreate (uRem.targetAlias ++ "/" ++ ccTgt.urlPath),
         Effect.removeObject ccTgt.urlPath]) :=
  (doRemove_permission_swallowed mjPlain _ uRem ccTgt rfl rfl rfl).2
    [some permErr] badErr [] rfl
    (by
      intro x hx
      simp only [List.mem_singleton] at hx
      subst hx
      exact Or.inr ⟨permErr, rfl, rfl⟩)
    (by decide)

/-- C8: an intent already carrying an error is terminal: doMirror and doCopy
return it immediately with the error traced and perform no storage effect,
and the startMirror scan loop routes it to the status channel without
enqueuing it. -/
theorem error_intent_no_side_effects
    (mj : MirrorJob) (env : MirrorEnv) (st : Status) (sURLs : URLs)
    (upload : URLs → URLs) (isOlderF isNewerF : Nat → String → Bool) (e : Err)
    (herr : sURLs.error = some e) :
    doMirror mj env st sURLs = some (sURLs.withError (some e.trace), st, []) ∧
    doCopy upload sURLs = some ({ sURLs with error := some e.trace }, []) ∧
    startMirrorStep mj isOlderF isNewerF st sURLs = (ScanAction.emitStatus sURLs, st) := by
  refine ⟨?_, ?_, ?_⟩ <;> simp [doMirror, doCopy, startMirrorStep, herr]

/-- Witness for C8 at a concrete erroneous intent. -/
theorem error_intent_no_side_effects_witness :
    doMirror mjPlain envMirrorId { totalBytes := 0, totalCount := 0 } uErr =
      some (uErr.withError (some badErr.trace), { totalBytes := 0, totalCount := 0 }, []) :=
  (error_intent_no_side_effects mjPlain envMirrorId _ uErr (fun u => u)
      (fun _ _ => false) (fun _ _ => false) badErr rfl).1

/-- C10: in fake mode doMirror and doRemove create no client, upload and
remove nothing (no storage effect) and return the intent with a nil error;
doMirror only advances the byte total by the source size. -/
theorem fake_mode_no_storage_ops
    (mj : MirrorJob) (menv : MirrorEnv) (renv : RemoveEnv) (st : Status) (sURLs : URLs)
    (hfake : mj.isFake = true) :
    doRemove mj renv sURLs = some (sURLs.withError none, []) ∧
    (sURLs.error = none →
      ((∀ c, sURLs.sourceContent = some c →
          doMirror mj menv st sURLs =
            some (sURLs.withError none, { st with totalBytes := st.totalBytes + c.size }, [])) ∧
       (sURLs.sourceContent = none →
          doMirror mj menv st sURLs = some (sURLs.withError none, st, [])))) := by
  refine ⟨by simp [doRemove, hfake], ?_⟩
  intro herr
  constructor
  · intro c hc
    simp [doMirror, herr, hfake, hc]
  · intro hc
    simp [doMirror, herr, hfake, hc]

/-- Witness for C10 at a concrete intent in fake mode. -/
theorem fake_mode_no_storage_ops_witness :
    doRemove mjFake { newClientErr := none, removeErrors := [] } uOk =
        some (uOk.withError none, []) ∧
    doMirror mjFake envMirrorId { totalBytes := 0, totalCount := 0 } uOk =
      some (uOk.withError none, { totalBytes := 0 + ccSrc.size, totalCount := 0 }, []) := by
  have h := fake_mode_no_storage_ops mjFake envMirrorId
      { newClientErr := none, removeErrors := [] }
      { totalBytes := 0, totalCount := 0 } uOk rfl
  exact ⟨h.1, (h.2 rfl).1 ccSrc rfl⟩

theorem metaLookup_insert_self (m : List (String × String)) (k v : String) :
    metaLookup (metaInsert m k v) k = v := by
  simp [metaLookup, metaInsert, List.find?]

theorem metaLookup_insert_ne (m : List (String × String)) (k k2 v : String)
    (h : (k2 == k) = false) :
    metaLookup (metaInsert m k2 v) k = metaLookup m k := by
  simp [metaLookup, metaInsert, List.find?, h]

/-- C9: in multi-site mode, when the source user metadata lacks the marker
keys, doMirror uploads the intent whose prepared target metadata carries
multiMasterETagKey set to the source ETag and multiMasterSTagKey set to the
job site tag, so loop avoidance can recognize objects written by the mirror. -/
theorem doMirror_multisite_marker_tags
    (mj : MirrorJob) (env : MirrorEnv) (st : Status) (sURLs : URLs)
    (src tgt : ClientContent) (attrVal : String)
    (herr : sURLs.error = none) (hfake : mj.isFake = false)
    (hmm : mj.multiMasterEnable = true)
    (hsrc : sURLs.sourceContent = some src) (htgt : sURLs.targetContent = some tgt)
    (hetag : metaLookup src.userMetadata multiMasterETagKey = "")
    (hstag : metaLookup src.userMetadata multiMasterSTagKey = "")
    (hattr : (if mj.isPreserve = true then env.attrResult else Except.ok "") =
             Except.ok attrVal) :
    doMirror mj env st sURLs =
      some (env.uploadResult (mirrorPreparedURL mj sURLs src tgt attrVal), st,
            [Effect.upload (mirrorPreparedURL mj sURLs src tgt attrVal)]) ∧
    metaLookup (mirrorTargetMetadata mj src attrVal) multiMasterETagKey = src.etag ∧
    metaLookup (mirrorTargetMetadata mj src attrVal) multiMasterSTagKey = mj.multiMasterSTag := by
  refine ⟨?_, ?_, ?_⟩
  · simp [doMirror, herr, hfake, hsrc, htgt, hattr]
  · unfold mirrorTargetMetadata
    simp only [hmm, hetag, hstag, if_true]
    by_cases hsc : mj.storageCls = "" <;>
      by_cases hp : mj.isPreserve = true ∧ attrVal ≠ "" <;>
        simp [hsc, hp, metaLookup, metaInsert, List.find?,
          multiMasterETagKey, multiMasterSTagKey]
  · unfold mirrorTargetMetadata
    simp only [hmm, hetag, hstag, if_true]
    by_cases hsc : mj.storageCls = "" <;>
      by_cases hp : mj.isPreserve = true ∧ attrVal ≠ "" <;>
        simp [hsc, hp, metaLookup, metaInsert, List.find?,
          multiMasterETagKey, multiMasterSTagKey]

/-- Witness for C9 at a concrete multi-site upload. -/
theorem doMirror_multisite_marker_tags_witness :
    metaLookup (mirrorTargetMetadata mjW1 ccSrc "") multiMasterETagKey = ccSrc.etag ∧
    metaLookup (mirrorTargetMetadata mjW1 ccSrc "") multiMasterSTagKey = mjW1.multiMasterSTag := by
  have h := doMirror_multisite_marker_tags mjW1 envMirrorId
      { totalBytes := 0, totalCount := 0 } uOk ccSrc ccTgt ""
      rfl rfl rfl rfl rfl rfl rfl (by simp [mjW1, envMirrorId])
  exact ⟨h.2.1, h.2.2⟩

theorem monitorLoop_acc_true (ignorable : Err → Bool) (mm : Bool) (us : List URLs) :
    monitorMirrorStatusLoop ignorable mm true us = true := by
  induction us with
  | nil => rfl
  | cons u rest ih =>
    simp only [monitorMirrorStatusLoop]
    cases h : u.error with
    | none => exact ih
    | some e =>
      cases hsc : u.sourceContent <;> cases mm <;> simp [ite_self, ih]

theorem cpLoop_fst_true (ignorable : Err → Bool) (hs : Bool) (us : List URLs) :
    (doCopySessionLoop ignorable hs true us).1 = true := by
  induction us with
  | nil => rfl
  | cons u rest ih =>
    simp only [doCopySessionLoop]
    cases h : u.error with
    | none => exact ih
    | some e =>
      by_cases hig : ignorable e <;> cases hs <;> simp [hig, ih]

theorem monitorLoop_all_ignorable (ignorable : Err → Bool) (mm : Bool) :
    ∀ us : List URLs,
      (∀ u ∈ us, u.error = none ∨
        ∃ e, u.error = some e ∧ ignorable e = true ∧ u.sourceContent.isSome = true) →
      monitorMirrorStatusLoop ignorable mm false us = false := by
  intro us
  induction us with
  | nil => intro _; rfl
  | cons u rest ih =>
    intro h
    have hrest := fun y hy => h y (List.mem_cons_of_mem _ hy)
    rcases h u (List.mem_cons_self u rest) with hu | ⟨e, hu, hig, hsc⟩
    · simp only [monitorMirrorStatusLoop, hu]
      exact ih hrest
    · rcases Option.isSome_iff_exists.mp hsc with ⟨c, hc⟩
      simp only [monitorMirrorStatusLoop, hu, hc, hig, if_true]
      cases mm
      · simpa using ih hrest
      · simp

theorem monitorLoop_nonignorable_true (ignorable : Err → Bool) :
    ∀ us : List URLs,
      (∃ u ∈ us, ∃ e, u.error = some e ∧ (ignorable e = false ∨ u.sourceContent = none)) →
      monitorMirrorStatusLoop ignorable false false us = true := by
  intro us
  induction us with
  | nil => intro h; simp at h
  | cons u rest ih =>
    intro h
    rcases h with ⟨v, hv, e, herr, hbad⟩
    rcases List.mem_cons.mp hv with rfl | hvrest
    · simp only [monitorMirrorStatusLoop, herr]
      rcases hbad with hig | hsc
      · cases hcs : v.sourceContent <;>
          simp [hig, monitorLoop_acc_true]
      · simp [hsc, monitorLoop_acc_true]
    · simp only [monitorMirrorStatusLoop]
      cases herr0 : u.error with
      | none => exact ih ⟨v, hvrest, e, herr, hbad⟩
      | some e0 =>
        cases hsc0 : u.sourceContent with
        | none => simp [monitorLoop_acc_true]
        | some c0 =>
          by_cases hig0 : ignorable e0
          · simpa [hig0] using ih ⟨v, hvrest, e, herr, hbad⟩
          · simp [hig0, monitorLoop_acc_true]

theorem cpLoop_err_fst_true (ignorable : Err → Bool) (hs : Bool) :
    ∀ us : List URLs, (∃ u ∈ us, u.error.isSome = true) →
      (doCopySessionLoop ignorable hs false us).1 = true := by
  intro us
  induction us with
  | nil => intro h; simp at h
  | cons u rest ih =>
    intro h
    rcases h with ⟨v, hv, hverr⟩
    rcases List.mem_cons.mp hv with rfl | hvrest
    · rcases Option.isSome_iff_exists.mp hverr with ⟨e, he⟩
      simp only [doCopySessionLoop, he]
      by_cases hig : ignorable e <;> cases hs <;> simp [hig, cpLoop_fst_true]
    · simp only [doCopySessionLoop]
      cases herr0 : u.error with
      | none => exact ih ⟨v, hvrest, hverr⟩
      | some e0 =>
        by_cases hig0 : ignorable e0 <;> cases hs <;>
          simp [hig0, cpLoop_fst_true, ih ⟨v, hvrest, hverr⟩]

theorem cpLoop_snd_all_ignorable (ignorable : Err → Bool) (hs : Bool) :
    ∀ (us : List URLs) (acc : Bool),
      (∀ u ∈ us, u.error = none ∨ ∃ e, u.error = some e ∧ ignorable e = true) →
      (doCopySessionLoop ignorable hs acc us).2 = false := by
  intro us
  induction us with
  | nil => intro _ _; rfl
  | cons u rest ih =>
    intro acc h
    have hrest := fun y hy => h y (List.mem_cons_of_mem _ hy)
    rcases h u (List.mem_cons_self u rest) with hu | ⟨e, hu, hig⟩
    · simp only [doCopySessionLoop, hu]
      exact ih acc hrest
    · simp only [doCopySessionLoop, hu, hig, if_true]
      exact ih true hrest

/-- C3 counterexample: with every error classified ignorable, a single
ignorable copy failure still sets the non-zero exit status in the cp session
loop, and a single ignorable removal failure still flips the error flag of
the mirror status aggregator. -/
theorem ignorable_error_flips_exit_counterexample :
    (doCopySessionLoop ignoreAll false false [uErr]).1 = true ∧
    monitorMirrorStatusLoop ignoreAll false false [uRemErr] = true := by
  constructor <;> rfl

/-- C3 (amended): in the mirror status aggregator a copy failure classified
ignorable does not flip the exit-status flag, while (in the non-multi-master
aggregator that mainMirror turns into the exit status) every non-ignorable
failure and every removal failure flips it; in the cp session loop every
per-object failure sets the non-zero exit status, the ignorable
classification only preventing session termination. -/
theorem exit_status_ignorable_amended
    (ignorable : Err → Bool) (mm hs : Bool) (us : List URLs) :
    ((∀ u ∈ us, u.error = none ∨
        ∃ e, u.error = some e ∧ ignorable e = true ∧ u.sourceContent.isSome = true) →
      monitorMirrorStatusLoop ignorable mm false us = false) ∧
    ((∃ u ∈ us, ∃ e, u.error = some e ∧ (ignorable e = false ∨ u.sourceContent = none)) →
      monitorMirrorStatusLoop ignorable false false us = true) ∧
    ((∃ u ∈ us, u.error.isSome = true) →
      (doCopySessionLoop ignorable hs false us).1 = true) ∧
    ((∀ u ∈ us, u.error = none ∨ ∃ e, u.error = some e ∧ ignorable e = true) →
      (doCopySessionLoop ignorable hs false us).2 = false) :=
  ⟨monitorLoop_all_ignorable ignorable mm us,
   monitorLoop_nonignorable_true ignorable us,
   cpLoop_err_fst_true ignorable hs us,
   cpLoop_snd_all_ignorable ignorable hs us false⟩

/-- Witness for the amended C3: an ignorable copy failure leaves the mirror
flag unset, and a failure sets the cp exit status. -/
theorem exit_status_ignorable_amended_witness :
    monitorMirrorStatusLoop ignoreAll false false [uErr] = false ∧
    (doCopySessionLoop ignoreNone false false [uErr]).1 = true :=
  ⟨(exit_status_ignorable_amended ignoreAll false false [uErr]).1
      (by
        intro u hu
        simp only [List.mem_singleton] at hu
        subst hu
        exact Or.inr ⟨badErr, rfl, rfl, rfl⟩),
   (exit_status_ignorable_amended ignoreNone false false [uErr]).2.2.1
      ⟨uErr, List.mem_singleton.mpr rfl, rfl⟩⟩

theorem isCopiedList_length (m : String) (l : List String) :
    (isCopiedList m l).length = l.length := by
  unfold isCopiedList
  split
  · simp
  · split <;> simp

theorem getD_map_zip_dispatch :
    ∀ (l1 : List URLs) (l2 : List Bool) (i : Nat), i < l1.length → i < l2.length →
      ((l1.zip l2).map (fun p => sessionDispatch p.2 p.1)).getD i (CopyAction.real default) =
        sessionDispatch (l2.getD i false) (l1.getD i default) := by
  intro l1
  induction l1 with
  | nil => intro l2 i h1 _; simp at h1
  | cons a l1t ih =>
    intro l2 i h1 h2
    cases l2 with
    | nil => simp at h2
    | cons b l2t =>
      cases i with
      | zero => rfl
      | succ n =>
        simp only [List.zip_cons_cons, List.map_cons, List.getD_cons_succ]
        exact ih l2t n (by simpa using h1) (by simpa using h2)

theorem sessionReplay_getD (lastCopied : String) (replayed : List URLs) (i : Nat)
    (h : i < replayed.length) :
    (sessionReplay lastCopied replayed).getD i (CopyAction.real default) =
      sessionDispatch ((isCopiedList lastCopied (replayed.map srcURLString)).getD i false)
        (replayed.getD i default) := by
  have h2 : i < (isCopiedList lastCopied (replayed.map srcURLString)).length := by
    rw [isCopiedList_length, List.length_map]
    exact h
  simpa [sessionReplay] using getD_map_zip_dispatch replayed _ i h h2

/-- C4: on resume of a session with identical arguments, a replayed intent
whose source identifier is marked complete relative to the stored resume
marker is dispatched to the fake copy instead of a real one; the fake copy
returns the intent unchanged as a synthetic already-done result, advances
the progress total by the source size, and performs no storage effect
(fetches no bytes). -/
theorem resume_marker_skips_completed
    (lastCopied : String) (replayed : List URLs) (i : Nat) (pg : Int)
    (hi : i < replayed.length)
    (hdone : (isCopiedList lastCopied (replayed.map srcURLString)).getD i false = true) :
    (sessionReplay lastCopied replayed).getD i (CopyAction.real default) =
      CopyAction.fake (replayed.getD i default) ∧
    ∀ c, (replayed.getD i default).sourceContent = some c →
      doCopyFake (replayed.getD i default) true pg =
        some (replayed.getD i default, pg + c.size, []) := by
  constructor
  · rw [sessionReplay_getD lastCopied replayed i hi, hdone]
    rfl
  · intro c hc
    unfold doCopyFake
    rw [if_pos rfl, hc]

/-- Witness for C4: resuming with marker b, the first replayed intent (source
a) is dispatched to the fake copy, which only advances the progress total. -/
theorem resume_marker_skips_completed_witness :
    (sessionReplay "b" [uA, uB, uC]).getD 0 (CopyAction.real default) = CopyAction.fake uA ∧
    doCopyFake uA true 0 =
      some (uA, 0 + ({ ccSrc with urlPath := "a" } : ClientContent).size, []) := by
  have h := resume_marker_skips_completed "b" [uA, uB, uC] 0 0 (by decide) (by decide)
  exact ⟨h.1, h.2 { ccSrc with urlPath := "a" } rfl⟩

/-- C5 counterexample: the newer-than predicate rejects every object, and the
job has a newer-than filter configured, yet the watch loop enqueues and
counts a create event: the time filters are not applied in watch mode. -/
theorem watch_time_filter_counterexample :
    isNewerAlways 0 mjC5.newerThan = true ∧
    mjC5.newerThan ≠ "" ∧
    (watchMirrorStep mjC5 mexFalse envW1
        { totalBytes := 0, totalCount := 0 } evC5).1.isEnqueueAct = true ∧
    (watchMirrorStep mjC5 mexFalse envW1
        { totalBytes := 0, totalCount := 0 } evC5).2.totalCount = 1 := by
  refine ⟨rfl, by decide, rfl, rfl⟩

/-- C5 (amended): in batch scan mode an object rejected by the older-than or
newer-than predicate is skipped before any counting or enqueuing, and a
candidate matching an exclude pattern is never emitted by URL preparation;
in watch mode an event matching an exclude pattern is dropped before any
counting; the older-than/newer-than filters are not applied in watch mode. -/
theorem filters_reject_no_intent_amended
    (mj : MirrorJob) (mex : List String → String → Bool)
    (isOlderF isNewerF : Nat → String → Bool) (env : WatchEnv) (st : Status)
    (sURLs : URLs) (event : Event) (c : ClientContent)
    (candidates : List (String × URLs)) :
    (sURLs.error = none → sURLs.sourceContent = some c →
      mj.olderThan ≠ "" → isOlderF c.time mj.olderThan = true →
      startMirrorStep mj isOlderF isNewerF st sURLs = (ScanAction.skipFiltered, st)) ∧
    (sURLs.error = none → sURLs.sourceContent = some c →
      mj.newerThan ≠ "" → isNewerF c.time mj.newerThan = true →
      startMirrorStep mj isOlderF isNewerF st sURLs = (ScanAction.skipFiltered, st)) ∧
    (∀ u ∈ prepareMirrorURLsExcludeFilter mex mj.excludeOptions candidates,
      ∃ p ∈ candidates, p.2 = u ∧ mex mj.excludeOptions p.1 = false) ∧
    (mex mj.excludeOptions (trimPrefixStr event.path env.sourceURLFull) = true →
      watchMirrorStep mj mex env st event = (WatchAction.dropped, st)) := by
  refine ⟨?_, ?_, ?_, ?_⟩
  · intro herr hsc hne hold
    simp [startMirrorStep, herr, hsc, hold, bne_iff_ne, hne]
  · intro herr hsc hne hnew
    simp [startMirrorStep, herr, hsc, hnew, bne_iff_ne, hne]
  · intro u hu
    simp only [prepareMirrorURLsExcludeFilter, List.mem_map, List.mem_filter] at hu
    rcases hu with ⟨p, ⟨hp, hpex⟩, hpu⟩
    exact ⟨p, hp, hpu, by simpa using hpex⟩
  · intro hx
    simp [watchMirrorStep, hx]

/-- Witness for the amended C5: a concrete object rejected by the older-than
predicate is skipped with the status counters unchanged. -/
theorem filters_reject_no_intent_amended_witness :
    startMirrorStep mjC5b isOlderAlways isOlderAlways
        { totalBytes := 0, totalCount := 0 } uOk =
      (ScanAction.skipFiltered, { totalBytes := 0, totalCount := 0 }) :=
  (filters_reject_no_intent_amended mjC5b mexFalse isOlderAlways isOlderAlways envW1
      { totalBytes := 0, totalCount := 0 } uOk evC5 ccSrc []).1
    rfl rfl (by decide) rfl

/-- C6 counterexample: a remove event from a foreign user agent with removal
propagation enabled is nevertheless dropped, because its path matches an
exclude pattern: the claimed iff fails. -/
theorem watch_remove_excluded_counterexample :
    substrContains evC6.userAgent uaMirrorAppName = false ∧
    mjC6.isRemove = true ∧
    (watchMirrorStep mjC6 mexAll envW1 { totalBytes := 0, totalCount := 0 } evC6).1 =
      WatchAction.dropped := by
  refine ⟨by decide, rfl, rfl⟩

/-- C6 (amended): for a remove-class watch event, a removal is executed if
and only if the event path is not dropped by the exclude filter, the event
user agent does not contain the mirror identifier, and removal propagation
or multi-site mode is enabled. -/
theorem watch_remove_iff_amended
    (mj : MirrorJob) (mex : List String → String → Bool) (env : WatchEnv)
    (st : Status) (event : Event)
    (hr : event.type = EventType.remove) :
    (watchMirrorStep mj mex env st event).1.isRemoveAct = true ↔
      (mex mj.excludeOptions (trimPrefixStr event.path env.sourceURLFull) = false ∧
       substrContains event.userAgent uaMirrorAppName = false ∧
       (mj.isRemove = true ∨ mj.multiMasterEnable = true)) := by
  unfold watchMirrorStep
  cases hex : mex mj.excludeOptions (trimPrefixStr event.path env.sourceURLFull)
  · simp only [hex, Bool.false_eq_true, if_false, hr]
    simp only [show ¬(EventType.remove = EventType.create ∨
        EventType.remove = EventType.createCopy ∨
        EventType.remove = EventType.createPutRetention) from by simp, if_false, if_true]
    unfold watchRemoveBranch
    cases hua : substrContains event.userAgent uaMirrorAppName
    · by_cases hflag : mj.isRemove = true ∨ mj.multiMasterEnable = true <;>
        simp [hua, hflag, WatchAction.isRemoveAct]
    · simp [hua, WatchAction.isRemoveAct]
  · simp [hex, WatchAction.isRemoveAct]

/-- Witness for the amended C6: a non-excluded remove event from a foreign
user agent with removal enabled executes the removal. -/
theorem watch_remove_iff_amended_witness :
    (watchMirrorStep mjC6 mexFalse envW1 { totalBytes := 0, totalCount := 0 } evC6).1.isRemoveAct
      = true :=
  (watch_remove_iff_amended mjC6 mexFalse envW1
      { totalBytes := 0, totalCount := 0 } evC6 rfl).mpr
    ⟨rfl, by decide, Or.inl rfl⟩

end MC
